import Mathlib

/-!
Verification of quantify_clusters.py (ClusterQuantification).

The Python source is shallowly embedded: the mask image is a row-major grid
of natural-number intensities, cluster coordinates are exact rationals,
numpy/Python indexing (including negative indices and IndexError) is modelled
explicitly, and fallible computations return Option.
-/

set_option autoImplicit false

namespace ClusterQuant

/-- BinaryMask: a 2-D grid of non-negative integer intensity values,
row major, as produced by np.array of the converted mask image. -/
abbrev Mask := List (List ℕ)

/-- A decoded RGB raster image: rows of (R, G, B) pixel values. -/
abbrev RGBImage := List (List (ℕ × ℕ × ℕ))

/-- np.round on an exact value: round to the nearest integer, ties to the
even integer (the IEEE-754 default rounding used by numpy.round).
The Python code applies int() afterwards, which is the identity on the
already-integral rounded value.  Written on the numerator and denominator so
that the kernel can evaluate it: f is the floor of q, r the non-negative
remainder, and the fractional part r/den is compared with 1/2 by cross
multiplication; np_round_eq_floor_form below restates it through Int.floor. -/
def np_round (q : ℚ) : ℤ :=
  let f := q.num.fdiv q.den
  let r := q.num - f * q.den
  if 2 * r < (q.den : ℤ) then f
  else if (q.den : ℤ) < 2 * r then f + 1
  else if f % 2 = 0 then f else f + 1

/-- Python sequence indexing l[i]: indices 0 ≤ i < len from the front,
indices -len ≤ i < 0 from the back, anything else raises IndexError
(modelled as none).  numpy 1-D arrays index the same way. -/
def pyIndex {α : Type} (l : List α) (i : ℤ) : Option α :=
  if 0 ≤ i then l[i.toNat]?
  else if -(l.length : ℤ) ≤ i then l[l.length - (-i).toNat]?
  else none

/-- mask[x][y] in Python/numpy semantics: index the row list, then the row. -/
def pyGet (mask : Mask) (i j : ℤ) : Option ℕ :=
  (pyIndex mask i).bind fun row => pyIndex row j

/-- The integer index pair int(np.round(x)), int(np.round(y)) used by the
membership test of get_cluster_count. -/
def roundedIdx (p : ℚ × ℚ) : ℤ × ℤ := (np_round p.1, np_round p.2)

/-- get_cluster_count: walk the coordinate list in order; for each point
round both coordinates, index the mask with mask[x][y], and when the cell is
non-zero increment the count and append the rounded pair.  An IndexError on
any point aborts the whole call (none). -/
def get_cluster_count (mask : Mask) : List (ℚ × ℚ) → Option (ℕ × List (ℤ × ℤ))
  | [] => some (0, [])
  | p :: rest =>
    match pyGet mask (np_round p.1) (np_round p.2) with
    | none => none
    | some v =>
      match get_cluster_count mask rest with
      | none => none
      | some (c, locs) =>
        if v ≠ 0 then some (c + 1, (np_round p.1, np_round p.2) :: locs)
        else some (c, locs)

/-- Module constant PX_SIZE_MEASUREMENT: px size of the measurement in nm. -/
def PX_SIZE_MEASUREMENT : ℚ := 108

/-- Module constant PX_SIZE_CLUSTERS: px size of the cluster/mask image in nm. -/
def PX_SIZE_CLUSTERS : ℚ := 10

/-- np.where(mask > 0, 1, mask): a fresh grid with every positive cell
replaced by 1 and every other cell kept. -/
def np_where_pos (mask : Mask) : Mask :=
  mask.map fun row => row.map fun v => if 0 < v then 1 else v

/-- np.sum over a 2-D grid of naturals. -/
def np_sum (mask : Mask) : ℕ := (mask.map List.sum).sum

/-- get_mask_area: binarize, sum to the pixel area, and convert to µm² with
area_px * (px_size_clusters/1000)².  The pixel-size module constant is taken
as an explicit parameter. -/
def get_mask_area (px_size_clusters : ℚ) (mask : Mask) : ℕ × ℚ :=
  let m := np_where_pos mask
  let area_px := np_sum m
  (area_px, (area_px : ℚ) * (px_size_clusters / 1000) ^ 2)

/-- get_xy_locs: read the com_x and com_y columns of the clusters table and
column_stack the rescaled columns (raw * PX_SIZE_MEASUREMENT / PX_SIZE_CLUSTERS).
np.column_stack of columns of unequal length raises (none); the two columns
are explicit parameters, the pixel-size module constants too. -/
def get_xy_locs (px_meas px_clusters : ℚ) (com_x com_y : List ℚ) :
    Option (List (ℚ × ℚ)) :=
  if com_x.length = com_y.length then
    some (List.zipWith
      (fun a b => (a * px_meas / px_clusters, b * px_meas / px_clusters))
      com_x com_y)
  else none

/-- Image.convert to mode L: the ITU-R 601-2 luma transform as implemented by
PIL, L = (19595 R + 38470 G + 7471 B + 32768) >> 16. -/
def convert_L (img : RGBImage) : Mask :=
  img.map fun row =>
    row.map fun p => (19595 * p.1 + 38470 * p.2.1 + 7471 * p.2.2 + 32768) / 65536

/-- Image.transpose(Image.FLIP_LEFT_RIGHT): mirror horizontally, i.e. reverse
every row of the pixel grid. -/
def flip_left_right (m : Mask) : Mask := m.map List.reverse

/-- Image.rotate(90): rotate the raster 90° counter-clockwise as displayed
(positive PIL angles are counter-clockwise); on the row-major grid this is
np.rot90, i.e. transpose then reverse the row order.  PIL keeps the image
size (expand=False); on the square mask rasters the pipeline uses this is the
exact rotation. -/
def rotate90 (m : Mask) : Mask := m.transpose.reverse

/-- get_mask: decode the image, convert to single-channel intensity, mirror
horizontally, rotate 90° counter-clockwise, and take the pixel grid. -/
def get_mask (img : RGBImage) : Mask := rotate90 (flip_left_right (convert_L img))

/-- numpy float64 division a / b: division by zero emits a RuntimeWarning and
propagates inf (or nan for 0/0) instead of raising; the nonfinite result is
modelled as none. -/
def np_divide (a b : ℚ) : Option ℚ := if b = 0 then none else some (a / b)

/-- One csv row of save_results for one (directory, mask) pair. -/
structure ClusterQuantificationRecord where
  mask_area_px : ℕ
  mask_area_um : ℚ
  cluster_count : ℕ
  cluster_count_per_area : Option ℚ
  n_clusters : ℕ
deriving DecidableEq, Repr

/-- The body of the per-mask loop of run_quantify_clusters: decode the mask
image (none = undecodable, an uncaught exception), compute the mask areas,
count the clusters inside, derive the density and assemble the record.  An
IndexError in the membership test also aborts (none). -/
def process_mask (clusters_xy : List (ℚ × ℚ)) (img : Option RGBImage) :
    Option ClusterQuantificationRecord :=
  match img with
  | none => none
  | some im =>
    let mask := get_mask im
    let area := get_mask_area PX_SIZE_CLUSTERS mask
    match get_cluster_count mask clusters_xy with
    | none => none
    | some (count, _locs) =>
      some { mask_area_px := area.1, mask_area_um := area.2,
             cluster_count := count,
             cluster_count_per_area := np_divide (count : ℚ) area.2,
             n_clusters := clusters_xy.length }

/-- The mask loop of run_quantify_clusters: masks are processed in directory
order and each successful iteration writes its csv record at once; an
uncaught exception stops the loop, leaving the remaining masks unprocessed.
Returns the records written and whether the loop finished without an
exception. -/
def run_quantify_clusters (clusters_xy : List (ℚ × ℚ)) :
    List (Option RGBImage) → List ClusterQuantificationRecord × Bool
  | [] => ([], true)
  | img :: rest =>
    match process_mask clusters_xy img with
    | none => ([], false)
    | some r =>
      let p := run_quantify_clusters clusters_xy rest
      (r :: p.1, p.2)

/-- main: run_quantify_clusters on each directory in order; an uncaught
exception in one directory stops the whole program, so the remaining
directories are never visited. -/
def main_loop :
    List (List (ℚ × ℚ) × List (Option RGBImage)) →
      List ClusterQuantificationRecord × Bool
  | [] => ([], true)
  | d :: rest =>
    let p := run_quantify_clusters d.1 d.2
    if p.2 then
      let q := main_loop rest
      (p.1 ++ q.1, q.2)
    else (p.1, false)

/-- The state visible to the Membership & Area Engine: the mask array and the
coordinate array of the caller. -/
structure EngineState where
  mask : Mask
  clusters_xy : List (ℚ × ℚ)
deriving DecidableEq

/-- get_cluster_count with the caller arrays threaded through explicitly.
The Python body only reads mask and clusters_xy (no element assignment, no
in-place numpy operation), so the state after the call is the state before. -/
def get_cluster_count_run (s : EngineState) :
    Option (ℕ × List (ℤ × ℤ)) × EngineState :=
  (get_cluster_count s.mask s.clusters_xy, s)

/-- get_mask_area with the caller arrays threaded through explicitly.
The line mask = np.where(mask > 0, 1, mask) allocates a fresh array and
rebinds the local name; the array of the caller is never written. -/
def get_mask_area_run (s : EngineState) : (ℕ × ℚ) × EngineState :=
  (get_mask_area PX_SIZE_CLUSTERS s.mask, s)

/-- The membership test of get_cluster_count for one point: true iff
mask[int(np.round(x))][int(np.round(y))] exists and is non-zero. -/
def inMask (mask : Mask) (p : ℚ × ℚ) : Bool :=
  match pyGet mask (np_round p.1) (np_round p.2) with
  | some v => v != 0
  | none => false

/-- Whether the membership test of get_cluster_count can index the mask for
one point without an IndexError. -/
def idxValid (mask : Mask) (p : ℚ × ℚ) : Bool :=
  (pyGet mask (np_round p.1) (np_round p.2)).isSome

/-- The number of non-zero cells of a grid. -/
def countNonzero (mask : Mask) : ℕ :=
  (mask.map fun row => (row.filter fun v => v != 0).length).sum

/-- The 4×4 orientation test grid: black everywhere except a single white
pixel in the top-right corner (row 0, column 3). -/
def corner_test_grid : RGBImage :=
  [[(0, 0, 0), (0, 0, 0), (0, 0, 0), (255, 255, 255)],
   [(0, 0, 0), (0, 0, 0), (0, 0, 0), (0, 0, 0)],
   [(0, 0, 0), (0, 0, 0), (0, 0, 0), (0, 0, 0)],
   [(0, 0, 0), (0, 0, 0), (0, 0, 0), (0, 0, 0)]]

/-! ### Basic lemmas about the embedding -/

/-- l[n]? is some exactly on indices below the length. -/
theorem getElem_opt_isSome {α : Type} (l : List α) (n : ℕ) :
    (l[n]?).isSome = true ↔ n < l.length := by
  rw [Option.isSome_iff_exists]
  constructor
  · rintro ⟨a, ha⟩
    exact (List.getElem?_eq_some.mp ha).1
  · intro h
    exact ⟨l[n], List.getElem?_eq_some.mpr ⟨h, rfl⟩⟩

/-- An element returned by l[n]? is an element of l. -/
theorem getElem_opt_mem {α : Type} {l : List α} {n : ℕ} {a : α}
    (h : l[n]? = some a) : a ∈ l := by
  obtain ⟨hl, rfl⟩ := List.getElem?_eq_some.mp h
  exact List.getElem_mem hl

/-- Python indexing succeeds exactly on the extended range -len ≤ i < len. -/
theorem pyIndex_isSome {α : Type} (l : List α) (i : ℤ) :
    (pyIndex l i).isSome = true ↔ -(l.length : ℤ) ≤ i ∧ i < (l.length : ℤ) := by
  unfold pyIndex
  split_ifs with h0 hn
  · rw [getElem_opt_isSome]
    omega
  · rw [getElem_opt_isSome]
    omega
  · simp only [Option.isSome_none, Bool.false_eq_true, false_iff]
    omega

/-- An element returned by Python indexing is an element of the list. -/
theorem pyIndex_mem {α : Type} {l : List α} {i : ℤ} {a : α}
    (h : pyIndex l i = some a) : a ∈ l := by
  unfold pyIndex at h
  split_ifs at h
  · exact getElem_opt_mem h
  · exact getElem_opt_mem h

/-- A negative Python index in range resolves to the index counted from the
opposite edge of the list. -/
theorem pyIndex_neg {α : Type} (l : List α) (i : ℤ)
    (h1 : -(l.length : ℤ) ≤ i) (h2 : i < 0) :
    pyIndex l i = pyIndex l ((l.length : ℤ) + i) := by
  unfold pyIndex
  rw [if_neg (by omega), if_pos h1, if_pos (by omega : (0 : ℤ) ≤ (l.length : ℤ) + i)]
  congr 1
  omega

/-- On a rectangular mask, mask[i][j] succeeds exactly when both indices lie
in their extended Python ranges. -/
theorem pyGet_isSome_iff (mask : Mask) (c : ℕ)
    (hrect : ∀ row ∈ mask, row.length = c) (i j : ℤ) :
    (pyGet mask i j).isSome = true ↔
      ((-(mask.length : ℤ) ≤ i ∧ i < (mask.length : ℤ)) ∧
       (-(c : ℤ) ≤ j ∧ j < (c : ℤ))) := by
  unfold pyGet
  cases hr : pyIndex mask i with
  | none =>
    have hi := pyIndex_isSome mask i
    rw [hr] at hi
    simp only [Option.isSome_none, Bool.false_eq_true, false_iff] at hi
    simp only [Option.none_bind, Option.isSome_none, Bool.false_eq_true, false_iff]
    intro hc
    exact hi hc.1
  | some row =>
    have hc : row.length = c := hrect row (pyIndex_mem hr)
    have hi := pyIndex_isSome mask i
    rw [hr] at hi
    simp only [Option.isSome_some, true_iff] at hi
    simp only [Option.some_bind]
    rw [pyIndex_isSome, hc]
    exact ⟨fun h => ⟨hi, h⟩, fun h => h.2⟩

/-- get_cluster_count on a single point raises exactly when mask[x][y] does. -/
theorem get_cluster_count_single_none (mask : Mask) (x y : ℚ) :
    get_cluster_count mask [(x, y)] = none ↔
      pyGet mask (np_round x) (np_round y) = none := by
  cases h : pyGet mask (np_round x) (np_round y) with
  | none => simp [get_cluster_count, h]
  | some v =>
    simp only [get_cluster_count, h]
    split <;> simp

/-- Full functional characterisation of get_cluster_count: it succeeds iff
every rounded point indexes the mask without an IndexError, and then returns
the number of points whose cell is non-zero together with their rounded
index pairs in encounter order. -/
theorem get_cluster_count_eq_spec (mask : Mask) (pts : List (ℚ × ℚ)) :
    get_cluster_count mask pts =
      if pts.all (idxValid mask) then
        some ((pts.filter (inMask mask)).length,
              (pts.filter (inMask mask)).map roundedIdx)
      else none := by
  induction pts with
  | nil => rfl
  | cons p rest ih =>
    simp only [get_cluster_count, List.all_cons, List.filter_cons]
    cases h : pyGet mask (np_round p.1) (np_round p.2) with
    | none =>
      have hv : idxValid mask p = false := by simp [idxValid, h]
      rw [hv]
      simp
    | some v =>
      have hv : idxValid mask p = true := by simp [idxValid, h]
      have him : inMask mask p = (v != 0) := by simp [inMask, h]
      rw [ih, hv, him]
      cases hall : rest.all (idxValid mask) with
      | false => simp [hall]
      | true =>
        by_cases hz : v = 0
        · simp [hz]
        · simp [hz, roundedIdx]

/-- Binarising one row and summing counts its non-zero cells. -/
theorem row_sum_binarize (row : List ℕ) :
    (row.map fun v => if 0 < v then 1 else v).sum =
      (row.filter fun v => v != 0).length := by
  induction row with
  | nil => rfl
  | cons v tl ihr =>
    simp only [List.map_cons, List.sum_cons, List.filter_cons]
    by_cases hv : v = 0
    · subst hv
      simpa using ihr
    · have h0 : 0 < v := Nat.pos_of_ne_zero hv
      have hb : (v != 0) = true := by simpa using hv
      rw [if_pos h0, hb, if_pos rfl, List.length_cons]
      omega

/-- The binarise-and-sum of get_mask_area counts the non-zero cells. -/
theorem np_sum_where_pos (mask : Mask) :
    np_sum (np_where_pos mask) = countNonzero mask := by
  unfold np_sum np_where_pos countNonzero
  rw [List.map_map]
  congr 1
  apply List.map_congr_left
  intro row _
  exact row_sum_binarize row

/-- get_mask_area in terms of the non-zero cell count. -/
theorem get_mask_area_spec (s : ℚ) (mask : Mask) :
    get_mask_area s mask =
      (countNonzero mask, (countNonzero mask : ℚ) * (s / 1000) ^ 2) := by
  simp only [get_mask_area]
  rw [np_sum_where_pos]

/-- np_round restated through Int.floor: it is round-half-to-even. -/
theorem np_round_eq_floor_form (q : ℚ) :
    np_round q =
      if q - (⌊q⌋ : ℚ) < 1/2 then ⌊q⌋
      else if (1/2 : ℚ) < q - (⌊q⌋ : ℚ) then ⌊q⌋ + 1
      else if ⌊q⌋ % 2 = 0 then ⌊q⌋ else ⌊q⌋ + 1 := by
  have hden : (0 : ℚ) < (q.den : ℚ) := by exact_mod_cast q.pos
  have hf : q.num.fdiv (q.den : ℤ) = ⌊q⌋ := by
    rw [Rat.floor_def, Int.fdiv_eq_ediv _ (by positivity)]
  have hq : (q.num : ℚ) = q * (q.den : ℚ) := by
    have hnd := Rat.num_div_den q
    rw [div_eq_iff (ne_of_gt hden)] at hnd
    exact hnd
  have key : q - (⌊q⌋ : ℚ) = ((q.num - ⌊q⌋ * q.den : ℤ) : ℚ) / (q.den : ℚ) := by
    rw [eq_div_iff (ne_of_gt hden)]
    push_cast
    rw [sub_mul, ← hq]
  have h1 : 2 * (q.num - ⌊q⌋ * (q.den : ℤ)) < (q.den : ℤ) ↔
      q - (⌊q⌋ : ℚ) < 1/2 := by
    rw [key, div_lt_div_iff hden (by norm_num : (0 : ℚ) < 2), one_mul,
      mul_comm]
    exact_mod_cast Iff.rfl
  have h2 : (q.den : ℤ) < 2 * (q.num - ⌊q⌋ * (q.den : ℤ)) ↔
      (1/2 : ℚ) < q - (⌊q⌋ : ℚ) := by
    rw [key, div_lt_div_iff (by norm_num : (0 : ℚ) < 2) hden, one_mul,
      mul_comm]
    exact_mod_cast Iff.rfl
  simp only [np_round, hf]
  rw [if_congr h1 rfl (if_congr h2 rfl rfl)]

/-- The mask loop: a mask whose processing raises stops run_quantify_clusters,
no later sibling mask is visited, and only the csv rows of the masks before
the failure are written. -/
theorem run_quantify_clusters_abort (xy : List (ℚ × ℚ))
    (pre : List (Option RGBImage)) (bad : Option RGBImage)
    (post : List (Option RGBImage))
    (hpre : ∀ m ∈ pre, process_mask xy m ≠ none)
    (hbad : process_mask xy bad = none) :
    run_quantify_clusters xy (pre ++ bad :: post) =
      (pre.filterMap (process_mask xy), false) := by
  induction pre with
  | nil =>
    simp only [List.nil_append, List.filterMap_nil]
    simp [run_quantify_clusters, hbad]
  | cons m tl ih =>
    have hm := hpre m (List.mem_cons_self m tl)
    cases hpm : process_mask xy m with
    | none => exact absurd hpm hm
    | some r =>
      have ih2 := ih fun m2 hm2 => hpre m2 (List.mem_cons_of_mem m hm2)
      simp only [List.cons_append]
      simp [run_quantify_clusters, hpm, ih2, List.filterMap_cons]

/-! ### Claims -/

/-- C1: for every BinaryMask and every ClusterPoint list, get_cluster_count
rounds both coordinates with np_round (the numeric environment default
round-half-to-even), indexes the mask with rounded x as the row index and
rounded y as the column index (pyGet, via inMask and idxValid), and counts a
point as inside exactly when the indexed cell value is non-zero: the call
returns the number of points whose cell is non-zero together with their
rounded indices, and fails only on an indexing error. -/
theorem membership_test_classification (mask : Mask) (pts : List (ℚ × ℚ)) :
    get_cluster_count mask pts =
      if pts.all (idxValid mask) then
        some ((pts.filter (inMask mask)).length,
              (pts.filter (inMask mask)).map roundedIdx)
      else none :=
  get_cluster_count_eq_spec mask pts

/-- C2 counterexample: the point (-1, -1) has rounded indices outside the
grid extent [0, 1) x [0, 1) of the 1x1 mask [[5]], yet get_cluster_count
raises no indexing error and classifies the point as inside against the cell
on the opposite edge, contradicting the claim that any out-of-extent rounded
index is a fatal indexing error. -/
theorem boundary_out_of_extent_not_fatal :
    np_round (-1 : ℚ) = -1 ∧
    get_cluster_count [[5]] [((-1 : ℚ), (-1 : ℚ))] = some (1, [(-1, -1)]) := by
  constructor
  · decide
  · decide

/-- C2 amended: on a rectangular mask, the membership test of
get_cluster_count fails with a fatal indexing error exactly when a rounded
coordinate falls outside the extended Python index range: rounded x outside
[-n_rows, n_rows) or rounded y outside [-n_cols, n_cols).  Rounded indices in
[-n, -1] are not an error: they are silently resolved against a cell counted
from the opposite edge of the grid. -/
theorem boundary_error_iff_outside_extended_range (mask : Mask) (c : ℕ)
    (x y : ℚ) (hrect : ∀ row ∈ mask, row.length = c) :
    get_cluster_count mask [(x, y)] = none ↔
      ¬((-(mask.length : ℤ) ≤ np_round x ∧ np_round x < (mask.length : ℤ)) ∧
        (-(c : ℤ) ≤ np_round y ∧ np_round y < (c : ℤ))) := by
  have hiff := pyGet_isSome_iff mask c hrect (np_round x) (np_round y)
  rw [get_cluster_count_single_none]
  constructor
  · intro hnone hra
    have hsome := hiff.mpr hra
    rw [hnone] at hsome
    simp at hsome
  · intro hra
    cases hpg : pyGet mask (np_round x) (np_round y) with
    | none => rfl
    | some v =>
      rw [hpg] at hiff
      exact absurd (hiff.mp rfl) hra

/-- C2 witness: on the 1x2 mask [[0, 1]] the point (0, 5) rounds to the
out-of-range column index 5 and get_cluster_count raises. -/
theorem boundary_error_iff_outside_extended_range_witness :
    get_cluster_count [[0, 1]] [((0 : ℚ), (5 : ℚ))] = none ↔
      ¬((-(([[0, 1]] : Mask).length : ℤ) ≤ np_round 0 ∧
          np_round 0 < (([[0, 1]] : Mask).length : ℤ)) ∧
        (-((2 : ℕ) : ℤ) ≤ np_round 5 ∧ np_round 5 < ((2 : ℕ) : ℤ))) :=
  boundary_error_iff_outside_extended_range [[0, 1]] 2 0 5 (by decide)

/-- C3: get_mask is exactly the composition convert-to-intensity, then
mirror horizontally, then rotate 90° counter-clockwise, in that order; on
the 4x4 grid with a single white corner pixel at (row 0, column 3), the
composed transform moves the marked cell to (row 3, column 0), the corner
predicted by flipping the column axis and then rotating counter-clockwise. -/
theorem mask_orientation_alignment :
    (∀ img : RGBImage, get_mask img = rotate90 (flip_left_right (convert_L img))) ∧
    get_mask corner_test_grid =
      [[0, 0, 0, 0], [0, 0, 0, 0], [0, 0, 0, 0], [255, 0, 0, 0]] := by
  constructor
  · intro img
    rfl
  · decide

/-- C4: get_xy_locs returns, when the two coordinate columns have equal
length n, exactly n points in source order, the i-th point being the i-th
raw pair scaled componentwise by measurement_pixel_size / mask_pixel_size,
with no rotation or offset. -/
theorem coordinate_loader_rescale (px_meas px_clusters : ℚ)
    (com_x com_y : List ℚ) (h : com_x.length = com_y.length) :
    get_xy_locs px_meas px_clusters com_x com_y =
      some (List.zipWith
        (fun a b => (a * (px_meas / px_clusters), b * (px_meas / px_clusters)))
        com_x com_y) ∧
    (List.zipWith
      (fun a b => (a * (px_meas / px_clusters), b * (px_meas / px_clusters)))
      com_x com_y).length = com_x.length := by
  constructor
  · unfold get_xy_locs
    rw [if_pos h]
    have hfun : (fun (a b : ℚ) =>
        (a * px_meas / px_clusters, b * px_meas / px_clusters)) =
        fun (a b : ℚ) =>
        (a * (px_meas / px_clusters), b * (px_meas / px_clusters)) := by
      funext a b
      rw [mul_div_assoc, mul_div_assoc]
    rw [hfun]
  · rw [List.length_zipWith, h, min_self]

/-- C4 witness: the loader applied to the columns [1, 2] and [3, 4] with the
pixel sizes 108 and 10. -/
theorem coordinate_loader_rescale_witness :
    get_xy_locs 108 10 [1, 2] [3, 4] =
      some (List.zipWith
        (fun a b => (a * ((108 : ℚ) / 10), b * ((108 : ℚ) / 10)))
        [1, 2] [3, 4]) ∧
    (List.zipWith
      (fun a b => (a * ((108 : ℚ) / 10), b * ((108 : ℚ) / 10)))
      [1, 2] [3, 4]).length = ([1, 2] : List ℚ).length :=
  coordinate_loader_rescale 108 10 [1, 2] [3, 4] (by decide)

/-- C5: get_mask_area returns area_px equal to the number of non-zero mask
cells and area_physicalunits equal to area_px * (pixel size in nm / 1000)²;
for a fixed pixel size the physical area is monotone non-decreasing in
area_px. -/
theorem mask_area_count_and_monotone (s : ℚ) (mask mask2 : Mask)
    (hmono : countNonzero mask ≤ countNonzero mask2) :
    (get_mask_area s mask).1 = countNonzero mask ∧
    (get_mask_area s mask).2 =
      ((get_mask_area s mask).1 : ℚ) * (s / 1000) ^ 2 ∧
    (get_mask_area s mask).2 ≤ (get_mask_area s mask2).2 := by
  rw [get_mask_area_spec, get_mask_area_spec]
  refine ⟨rfl, rfl, ?_⟩
  apply mul_le_mul_of_nonneg_right
  · exact_mod_cast hmono
  · exact sq_nonneg _

/-- C5 witness: the masks [[0, 1]] and [[2, 3]] with the module pixel size. -/
theorem mask_area_count_and_monotone_witness :
    (get_mask_area PX_SIZE_CLUSTERS [[0, 1]]).1 = countNonzero [[0, 1]] ∧
    (get_mask_area PX_SIZE_CLUSTERS [[0, 1]]).2 =
      ((get_mask_area PX_SIZE_CLUSTERS [[0, 1]]).1 : ℚ) *
        (PX_SIZE_CLUSTERS / 1000) ^ 2 ∧
    (get_mask_area PX_SIZE_CLUSTERS [[0, 1]]).2 ≤
      (get_mask_area PX_SIZE_CLUSTERS [[2, 3]]).2 :=
  mask_area_count_and_monotone PX_SIZE_CLUSTERS [[0, 1]] [[2, 3]] (by decide)

/-- C6: for an all-zero mask the pipeline computes area_px = 0 and the
density count / area_physicalunits propagates the nonfinite numpy result
(modelled none) instead of raising: process_mask still returns a record, with
cluster_count_per_area in the documented undefined state. -/
theorem empty_mask_density_undefined (img : RGBImage) (xy : List (ℚ × ℚ))
    (cnt : ℕ) (locs : List (ℤ × ℤ))
    (hzero : ∀ row ∈ get_mask img, ∀ v ∈ row, v = 0)
    (hrun : get_cluster_count (get_mask img) xy = some (cnt, locs)) :
    get_mask_area PX_SIZE_CLUSTERS (get_mask img) = (0, 0) ∧
    process_mask xy (some img) =
      some { mask_area_px := 0, mask_area_um := 0, cluster_count := cnt,
             cluster_count_per_area := none, n_clusters := xy.length } := by
  have hcz : countNonzero (get_mask img) = 0 := by
    unfold countNonzero
    apply List.sum_eq_zero
    intro a ha
    simp only [List.mem_map] at ha
    obtain ⟨row, hrow, rfl⟩ := ha
    rw [List.length_eq_zero, List.filter_eq_nil]
    intro v hv
    simp [hzero row hrow v hv]
  have harea : get_mask_area PX_SIZE_CLUSTERS (get_mask img) = (0, 0) := by
    rw [get_mask_area_spec, hcz]
    norm_num
  refine ⟨harea, ?_⟩
  simp [process_mask, hrun, harea, np_divide]

/-- C6 witness: the 1x1 black image and one point at the origin. -/
theorem empty_mask_density_undefined_witness :
    get_mask_area PX_SIZE_CLUSTERS (get_mask [[(0, 0, 0)]]) = (0, 0) ∧
    process_mask [((0 : ℚ), (0 : ℚ))] (some [[(0, 0, 0)]]) =
      some { mask_area_px := 0, mask_area_um := 0, cluster_count := 0,
             cluster_count_per_area := none,
             n_clusters := [((0 : ℚ), (0 : ℚ))].length } :=
  empty_mask_density_undefined [[(0, 0, 0)]] [((0 : ℚ), (0 : ℚ))] 0 []
    (by decide) (by decide)

/-- C7 counterexample: the decodable 1x1 white mask processed alone yields
one csv record, but behind an undecodable mask in the same directory it is
never processed (the run stops with no records), and a directory whose mask
raises stops main before the next directory: failures are not isolated. -/
theorem mask_failure_aborts_siblings :
    (run_quantify_clusters [] [some [[(255, 255, 255)]]]).1.length = 1 ∧
    (run_quantify_clusters [] [some [[(255, 255, 255)]]]).2 = true ∧
    run_quantify_clusters [] [none, some [[(255, 255, 255)]]] = ([], false) ∧
    main_loop [([], [none]), ([], [some [[(255, 255, 255)]]])] = ([], false) :=
  ⟨rfl, rfl, rfl, rfl⟩

/-- C7 amended: an uncaught failure while processing one mask aborts the
remaining masks of that directory and every following directory; only the
csv records of the masks processed before the failure are written. -/
theorem failure_aborts_rest_of_run (xy : List (ℚ × ℚ))
    (pre : List (Option RGBImage)) (bad : Option RGBImage)
    (post : List (Option RGBImage))
    (rest : List (List (ℚ × ℚ) × List (Option RGBImage)))
    (hpre : ∀ m ∈ pre, process_mask xy m ≠ none)
    (hbad : process_mask xy bad = none) :
    run_quantify_clusters xy (pre ++ bad :: post) =
      (pre.filterMap (process_mask xy), false) ∧
    main_loop ((xy, pre ++ bad :: post) :: rest) =
      (pre.filterMap (process_mask xy), false) := by
  have h1 := run_quantify_clusters_abort xy pre bad post hpre hbad
  refine ⟨h1, ?_⟩
  simp only [main_loop]
  rw [h1]
  simp

/-- C7 witness: a good mask, then an undecodable mask, then another good
mask, followed by a second directory that is never reached. -/
theorem failure_aborts_rest_of_run_witness :
    run_quantify_clusters []
        ([some [[(255, 255, 255)]]] ++ none :: [some [[(255, 255, 255)]]]) =
      (([some [[(255, 255, 255)]]]).filterMap (process_mask []), false) ∧
    main_loop (([], [some [[(255, 255, 255)]]] ++
          none :: [some [[(255, 255, 255)]]]) ::
        [([], [some [[(255, 255, 255)]]])]) =
      (([some [[(255, 255, 255)]]]).filterMap (process_mask []), false) :=
  failure_aborts_rest_of_run [] [some [[(255, 255, 255)]]] none
    [some [[(255, 255, 255)]]] [([], [some [[(255, 255, 255)]]])]
    (by decide) (by decide)

/-- C8: whenever get_cluster_count returns, the count is between 0 and the
number of input points, and points_inside is a subsequence of the rounded
input points, so it preserves the encounter order of the input sequence. -/
theorem count_inside_bounds_and_order (mask : Mask) (pts : List (ℚ × ℚ))
    (cnt : ℕ) (locs : List (ℤ × ℤ))
    (h : get_cluster_count mask pts = some (cnt, locs)) :
    0 ≤ cnt ∧ cnt ≤ pts.length ∧ List.Sublist locs (pts.map roundedIdx) := by
  have hs := get_cluster_count_eq_spec mask pts
  rw [h] at hs
  by_cases hall : pts.all (idxValid mask) = true
  · rw [if_pos hall] at hs
    injection hs with hs2
    injection hs2 with h1 h2
    subst h1
    subst h2
    exact ⟨Nat.zero_le _, List.length_filter_le _ _,
      List.Sublist.map roundedIdx (List.filter_sublist pts)⟩
  · rw [if_neg hall] at hs
    simp at hs

/-- C8 witness: the 2x2 identity mask with one inside and one outside
point. -/
theorem count_inside_bounds_and_order_witness :
    0 ≤ 1 ∧ 1 ≤ ([((0 : ℚ), (0 : ℚ)), ((0 : ℚ), (1 : ℚ))]).length ∧
    List.Sublist [((0 : ℤ), (0 : ℤ))]
      (([((0 : ℚ), (0 : ℚ)), ((0 : ℚ), (1 : ℚ))]).map roundedIdx) :=
  count_inside_bounds_and_order [[1, 0], [0, 1]]
    [((0 : ℚ), (0 : ℚ)), ((0 : ℚ), (1 : ℚ))] 1 [(0, 0)] (by decide)

/-- C9: the Membership & Area Engine leaves its inputs unchanged: after
get_cluster_count and get_mask_area return, the mask grid and the coordinate
sequence of the threaded state equal their values before the call (the
Python bodies contain no element assignment or in-place array operation). -/
theorem engine_preserves_inputs (s : EngineState) :
    (get_cluster_count_run s).2.mask = s.mask ∧
    (get_cluster_count_run s).2.clusters_xy = s.clusters_xy ∧
    (get_mask_area_run s).2.mask = s.mask ∧
    (get_mask_area_run s).2.clusters_xy = s.clusters_xy :=
  ⟨rfl, rfl, rfl, rfl⟩

/-- C10 counterexample: the claim quantifies over every point whose rounded x
lies in [-r, -1] OR whose rounded y lies in [-c, -1] and asserts no indexing
error; the point (-1, 5) on the 1x1 mask [[1]] has rounded x = -1 in [-1, -1]
yet get_cluster_count raises an indexing error on the column index 5. -/
theorem negative_index_claim_fails_on_mixed_point :
    np_round (-1 : ℚ) = -1 ∧
    get_cluster_count [[1]] [((-1 : ℚ), (5 : ℚ))] = none := by
  constructor <;> decide

/-- C10 amended: on a rectangular mask, a point whose rounded coordinates
both lie in the extended Python ranges [-r, r) and [-c, c), at least one of
them negative, raises no indexing error: the negative index silently selects
the cell counted from the opposite edge of the grid (so such a point can be
classified as inside, as the witness shows on a non-zero cell); moreover
count_inside always equals the length of points_inside. -/
theorem negative_index_wraps_to_opposite_edge (mask : Mask) (c : ℕ)
    (x y : ℚ) (pts : List (ℚ × ℚ)) (cnt : ℕ) (locs : List (ℤ × ℤ))
    (hrect : ∀ row ∈ mask, row.length = c)
    (hx : -(mask.length : ℤ) ≤ np_round x ∧ np_round x < (mask.length : ℤ))
    (hy : -(c : ℤ) ≤ np_round y ∧ np_round y < (c : ℤ))
    (_hneg : np_round x < 0 ∨ np_round y < 0)
    (hrun : get_cluster_count mask pts = some (cnt, locs)) :
    get_cluster_count mask [(x, y)] =
      some (if inMask mask (x, y) then (1, [roundedIdx (x, y)])
        else (0, [])) ∧
    pyGet mask (np_round x) (np_round y) =
      pyGet mask
        (if np_round x < 0 then (mask.length : ℤ) + np_round x
          else np_round x)
        (if np_round y < 0 then (c : ℤ) + np_round y else np_round y) ∧
    cnt = locs.length := by
  refine ⟨?_, ?_, ?_⟩
  · have hvalid : idxValid mask (x, y) = true := by
      rw [idxValid, pyGet_isSome_iff mask c hrect]
      exact ⟨hx, hy⟩
    rw [get_cluster_count_eq_spec mask [(x, y)]]
    simp only [List.all_cons, List.all_nil, Bool.and_true, hvalid, if_true,
      List.filter_cons, List.filter_nil]
    cases hin : inMask mask (x, y) <;> simp [hin]
  · have houter : pyIndex mask (np_round x) =
        pyIndex mask
          (if np_round x < 0 then (mask.length : ℤ) + np_round x
            else np_round x) := by
      split_ifs with h
      · exact pyIndex_neg mask _ hx.1 h
      · rfl
    unfold pyGet
    rw [houter]
    cases hrow : pyIndex mask
        (if np_round x < 0 then (mask.length : ℤ) + np_round x
          else np_round x) with
    | none => rfl
    | some row =>
      simp only [Option.some_bind]
      have hc : row.length = c := hrect row (pyIndex_mem hrow)
      split_ifs with h
      · rw [pyIndex_neg row _ (by rw [hc]; exact hy.1) h, hc]
      · rfl
  · have hs := get_cluster_count_eq_spec mask pts
    rw [hrun] at hs
    by_cases hall : pts.all (idxValid mask) = true
    · rw [if_pos hall] at hs
      injection hs with hs2
      injection hs2 with h1 h2
      subst h1
      subst h2
      rw [List.length_map]
    · rw [if_neg hall] at hs
      simp at hs

/-- C10 witness: the point (-1, -1) on the 1x1 mask [[5]] wraps both indices
to the cell (0, 0), whose value 5 is non-zero, so the point is classified as
inside. -/
theorem negative_index_wraps_to_opposite_edge_witness :
    get_cluster_count [[5]] [((-1 : ℚ), (-1 : ℚ))] =
      some (if inMask [[5]] ((-1 : ℚ), (-1 : ℚ))
        then (1, [roundedIdx ((-1 : ℚ), (-1 : ℚ))]) else (0, [])) ∧
    pyGet [[5]] (np_round (-1 : ℚ)) (np_round (-1 : ℚ)) =
      pyGet [[5]]
        (if np_round (-1 : ℚ) < 0
          then (([[5]] : Mask).length : ℤ) + np_round (-1 : ℚ)
          else np_round (-1 : ℚ))
        (if np_round (-1 : ℚ) < 0 then ((1 : ℕ) : ℤ) + np_round (-1 : ℚ)
          else np_round (-1 : ℚ)) ∧
    1 = ([((-1 : ℤ), (-1 : ℤ))]).length :=
  negative_index_wraps_to_opposite_edge [[5]] 1 (-1) (-1)
    [((-1 : ℚ), (-1 : ℚ))] 1 [(-1, -1)]
    (by decide) (by decide) (by decide) (by decide) (by decide)

end ClusterQuant
